import Mathlib

/-!
# Verification of the mcpdd monitoring engine

Shallow embedding of the core monitoring logic of `mcpdd` (an uptime
monitor for remote MCP servers): the prober state machine and its error
classification (`prober.js`), the short-circuit scheduler for
multi-remote providers, the history store with time-based trimming, and
the read-side aggregation (`server.js`).  Machine integers are modelled
as `Nat` (timestamps and latencies are non-negative millisecond counts
that never overflow a JS double in practice), JS `null`/`undefined`
fields as `Option`, and the finite status strings as inductive types.
-/

namespace Mcpdd

/-- Health status of an endpoint, one of the five strings used by the
code (`healthy`, `degraded`, `unhealthy`, `down`, `unknown`). -/
inductive Status where
  | healthy
  | degraded
  | unhealthy
  | down
  | unknown
deriving DecidableEq, Repr, Fintype

/-- Auth axis of an endpoint (`open`, `protected`, `unknown`); the two
reserved words are suffixed with an underscore.  -/
inductive Auth where
  | open_
  | protected_
  | unknown
deriving DecidableEq, Repr, Fintype

/-- One observation, as produced by `probeServer` in `prober.js`:
`{ timestamp, status, auth, latencyMs, toolCount, error }`. -/
structure CheckResult where
  timestamp : Nat
  status : Status
  auth : Auth
  latencyMs : Option Nat
  toolCount : Option Nat
  error : Option String
deriving DecidableEq, Repr

/-- `STATUS_PRIORITY` table of `server.js`:
`{ down: 0, unhealthy: 1, degraded: 2, healthy: 3, unknown: 4 }`.
The JS lookup `STATUS_PRIORITY[s] ?? 4` defaults to 4 for unrecognized
strings; the `Status` type has exactly the recognized strings, so the
default arm is unreachable here. -/
def STATUS_PRIORITY : Status → Nat
  | .down => 0
  | .unhealthy => 1
  | .degraded => 2
  | .healthy => 3
  | .unknown => 4

/-- One iteration of the loop body of `worstStatus` in `server.js`:
`if (STATUS_PRIORITY[s] < STATUS_PRIORITY[worst]) worst = s`. -/
def worstStep (worst s : Status) : Status :=
  if STATUS_PRIORITY s < STATUS_PRIORITY worst then s else worst

/-- `worstStatus` of `server.js`: fold the update step over the list,
starting from `'unknown'`. -/
def worstStatus (statuses : List Status) : Status :=
  statuses.foldl worstStep .unknown

lemma worstStep_right_comm (w a b : Status) :
    worstStep (worstStep w a) b = worstStep (worstStep w b) a := by
  revert w a b; decide

lemma foldl_worstStep_out :
    ∀ (l : List Status) (w a : Status),
      l.foldl worstStep (worstStep w a) = worstStep (l.foldl worstStep w) a := by
  intro l
  induction l with
  | nil => intro w a; rfl
  | cons b t ih =>
      intro w a
      simp only [List.foldl_cons]
      rw [worstStep_right_comm w a b, ih]

lemma worstStatus_reverse (l : List Status) :
    worstStatus l.reverse = worstStatus l := by
  induction l with
  | nil => rfl
  | cons a t ih =>
      simp only [worstStatus, List.reverse_cons, List.foldl_append, List.foldl_cons,
        List.foldl_nil] at *
      rw [ih, ← foldl_worstStep_out]

/-- C1: the worst-of reduction uses the total order
`down < unhealthy < degraded < healthy < unknown`, is order-independent
(in particular on three-element lists and under list reversal),
satisfies `worst([x]) = x` for every status `x`, and `worst([]) = unknown`. -/
theorem worstStatus_spec :
    (STATUS_PRIORITY .down < STATUS_PRIORITY .unhealthy ∧
     STATUS_PRIORITY .unhealthy < STATUS_PRIORITY .degraded ∧
     STATUS_PRIORITY .degraded < STATUS_PRIORITY .healthy ∧
     STATUS_PRIORITY .healthy < STATUS_PRIORITY .unknown) ∧
    (∀ a b c : Status, worstStatus [a, b, c] = worstStatus [c, b, a]) ∧
    (∀ l : List Status, worstStatus l.reverse = worstStatus l) ∧
    (∀ x : Status, worstStatus [x] = x) ∧
    worstStatus [] = .unknown := by
  refine ⟨by decide, by decide, worstStatus_reverse, by decide, rfl⟩

/-! ## Prober (`prober.js`) -/

/-- A probe target, the fields of `serverConfig` that the prober reads:
`{ url, transport, expectAuth }`. -/
structure ServerConfig where
  url : String
  transport : String
  expectAuth : Bool
deriving DecidableEq, Repr

/-- A JS `Error`-like value as the classifier inspects it: its
`message`, its `name` (default `"Error"`), the optional numeric HTTP
`code` carried by `StreamableHTTPError`/`SseError`, its constructor
name, and the optional `cause.code` string of fetch-level failures. -/
structure JSError where
  message : String
  name : String
  code : Option Nat
  ctorName : String
  causeCode : Option String
deriving DecidableEq, Repr

/-- JS `String(err)` for an `Error` object
(`Error.prototype.toString`): `name` when the message is empty,
`name ++ ": " ++ message` otherwise. -/
def jsErrorToString (err : JSError) : String :=
  if err.message = "" then err.name else err.name ++ (": ") ++ err.message

/-- `err.message || String(err)`: the message when it is non-empty
(truthy), otherwise the `String(err)` rendering. -/
def errorText (err : JSError) : String :=
  if err.message = "" then jsErrorToString err else err.message

/-- Whether `needle` is a prefix of the character list. -/
def listStartsWith : List Char → List Char → Bool
  | _, [] => true
  | [], _ :: _ => false
  | h :: hs, n :: ns => (h == n) && listStartsWith hs ns

/-- Whether `needle` occurs contiguously inside `hay`. -/
def listIncludes (needle : List Char) : List Char → Bool
  | [] => listStartsWith [] needle
  | c :: rest => listStartsWith (c :: rest) needle || listIncludes needle rest

/-- JS `msg.includes(sub)`: contiguous-substring containment. -/
def strIncludes (hay sub : String) : Bool :=
  listIncludes sub.toList hay.toList

/-- JS `code >= lo && code < hi` where `code` may be `undefined`
(`undefined` compares false). -/
def codeInRange (code : Option Nat) (lo hi : Nat) : Bool :=
  match code with
  | some c => decide (lo ≤ c) && decide (c < hi)
  | none => false

/-- A `CheckResult` without its timestamp: what `doProbe` and
`classifyConnectError` return before `probeServer` prepends the
timestamp. -/
structure ProbeBody where
  status : Status
  auth : Auth
  latencyMs : Option Nat
  toolCount : Option Nat
  error : Option String
deriving DecidableEq, Repr

/-- The guard of the first branch of `classifyConnectError`:
`code === 401 || code === 403 || constructor UnauthorizedError ||`
message mentions 401/Unauthorized/403/Forbidden. -/
def isAuthDenied (err : JSError) : Bool :=
  let msg := errorText err
  (err.code == some 401) || (err.code == some 403) ||
  (err.ctorName == ("UnauthorizedError")) ||
  strIncludes msg ("401") || strIncludes msg ("Unauthorized") ||
  strIncludes msg ("403") || strIncludes msg ("Forbidden")

/-- The guard of the connection-level branch of `classifyConnectError`:
`err.cause?.code` in {ECONNREFUSED, ENOTFOUND, ECONNRESET, ETIMEDOUT}
or the message mentioning `fetch failed`/`ECONNREFUSED`/`ENOTFOUND`. -/
def isConnFailure (err : JSError) : Bool :=
  let msg := errorText err
  (err.causeCode == some ("ECONNREFUSED")) || (err.causeCode == some ("ENOTFOUND")) ||
  (err.causeCode == some ("ECONNRESET")) || (err.causeCode == some ("ETIMEDOUT")) ||
  strIncludes msg ("fetch failed") || strIncludes msg ("ECONNREFUSED") ||
  strIncludes msg ("ENOTFOUND")

/-- `classifyConnectError` of `prober.js`: turn an error from the
connect/initialize attempt into a `CheckResult` body.  Branches, in
order: 401/403-class → alive+protected; 5xx → down; connection-level
failure → down; other 3xx/4xx → unhealthy; anything else → unhealthy. -/
def classifyConnectError (err : JSError) (serverConfig : ServerConfig) : ProbeBody :=
  let msg := errorText err
  if isAuthDenied err then
    { status := .healthy, auth := .protected_, latencyMs := none, toolCount := none,
      error := none }
  else if codeInRange err.code 500 600 then
    { status := .down,
      auth := if serverConfig.expectAuth then .protected_ else .unknown,
      latencyMs := none, toolCount := none,
      error := some (("HTTP ") ++ toString (err.code.getD 0) ++ (": ") ++ msg) }
  else if isConnFailure err then
    { status := .down,
      auth := if serverConfig.expectAuth then .protected_ else .unknown,
      latencyMs := none, toolCount := none, error := some msg }
  else if codeInRange err.code 300 500 && !(err.code == some 401) && !(err.code == some 403) then
    { status := .unhealthy,
      auth := if serverConfig.expectAuth then .protected_ else .open_,
      latencyMs := none, toolCount := none,
      error := some (("HTTP ") ++ toString (err.code.getD 0) ++ (": ") ++ msg) }
  else
    { status := .unhealthy,
      auth := if serverConfig.expectAuth then .protected_ else .open_,
      latencyMs := none, toolCount := none, error := some msg }

/-- Outcome of the `tools/list` stage: either the request threw, or it
returned a result whose `tools` field is absent (`none`) or holds a
list of the given length. -/
inductive ToolsOutcome where
  | toolsError (msg : String)
  | toolsOk (tools : Option Nat)
deriving DecidableEq, Repr

/-- Outcome of the ping stage: either `client.ping()` threw after
`elapsedMs` milliseconds, or it returned after `latencyMs`
milliseconds and the probe proceeded to `tools/list`. -/
inductive PingOutcome where
  | pingError (elapsedMs : Nat) (msg : String)
  | pingOk (latencyMs : Nat) (tools : ToolsOutcome)
deriving DecidableEq, Repr

/-- Outcome of the connect/initialize stage of one probe. -/
inductive ConnectOutcome where
  | connectError (err : JSError)
  | connectOk (ping : PingOutcome)
deriving DecidableEq, Repr

/-- `doProbe` of `prober.js`, as a function of the network outcome:
connect error → classify; ping error → degraded with the elapsed time
recorded as latency; tools/list error → unhealthy keeping the ping
latency; full success → healthy/degraded by the latency thresholds,
with `toolCount = result.tools ? result.tools.length : 0`. -/
def doProbe (outcome : ConnectOutcome) (serverConfig : ServerConfig) : ProbeBody :=
  match outcome with
  | .connectError err => classifyConnectError err serverConfig
  | .connectOk (.pingError elapsedMs msg) =>
      { status := .degraded, auth := .open_, latencyMs := some elapsedMs,
        toolCount := none, error := some (("ping failed: ") ++ msg) }
  | .connectOk (.pingOk latencyMs (.toolsError msg)) =>
      { status := .unhealthy, auth := .open_, latencyMs := some latencyMs,
        toolCount := none, error := some (("tools/list failed: ") ++ msg) }
  | .connectOk (.pingOk latencyMs (.toolsOk tools)) =>
      { status :=
          if latencyMs > 2000 then .degraded
          else if latencyMs > 500 then .degraded else .healthy,
        auth := .open_, latencyMs := some latencyMs,
        toolCount := some (tools.getD 0), error := none }

/-- Outcome of `Promise.race([doProbe(..), timeout(..)])` in
`probeServer`: either the probe settled with a body, or an exception
(timeout, invalid URL thrown by `new URL` before the inner
try/catch, or any other escaped error) was raised. -/
inductive RaceOutcome where
  | settled (body : ProbeBody)
  | raised (err : JSError)
deriving DecidableEq, Repr

/-- `probeServer` of `prober.js`: capture the timestamp at call start,
race the probe against the timeout, and on any rejection return the
catch-all `down` result instead of raising (the Lean model is a total
function, mirroring that no exception escapes). -/
def probeServer (timestamp : Nat) (serverConfig : ServerConfig)
    (race : RaceOutcome) : CheckResult :=
  match race with
  | .settled body =>
      { timestamp := timestamp, status := body.status, auth := body.auth,
        latencyMs := body.latencyMs, toolCount := body.toolCount, error := body.error }
  | .raised err =>
      { timestamp := timestamp, status := .down,
        auth := if serverConfig.expectAuth then .protected_ else .unknown,
        latencyMs := none, toolCount := none, error := some (errorText err) }

/-- C3 counterexample: with a handshake that succeeds and a ping that
fails after 50ms, the code records `latencyMs = 50`, not `null` — the
elapsed time of the failed ping attempt is kept. -/
theorem pingFailure_latency_counterexample :
    (doProbe (.connectOk (.pingError 50 ("read timeout")))
        { url := ("https://a.example/mcp"), transport := ("streamable-http"),
          expectAuth := false }).latencyMs = some 50 ∧
    some 50 ≠ (none : Option Nat) := by
  exact ⟨rfl, by decide⟩

/-- C3 amended: when the handshake succeeds but the liveness ping
fails, the result is health `degraded`, auth `open`, `toolCount`
absent, and `latencyMs` equal to the measured elapsed time of the
failed ping attempt (not `null`). -/
theorem pingFailure_spec_amended (elapsedMs : Nat) (msg : String)
    (serverConfig : ServerConfig) :
    doProbe (.connectOk (.pingError elapsedMs msg)) serverConfig =
      { status := .degraded, auth := .open_, latencyMs := some elapsedMs,
        toolCount := none, error := some (("ping failed: ") ++ msg) } := rfl

/-- C4: when handshake, ping and capability listing all succeed with
latency `L` and a capability list of `k` items, the result is
`healthy` iff `L ≤ 500` and `degraded` for every `L > 500` (there is no
separate band above 2000ms and no down-by-latency outcome), auth
`open`, `latencyMs = L`, `toolCount = k`; in particular 120ms/3 tools
gives healthy and 900ms/0 tools gives degraded. -/
theorem probeSuccess_spec :
    (∀ (latencyMs toolLen : Nat) (serverConfig : ServerConfig),
      doProbe (.connectOk (.pingOk latencyMs (.toolsOk (some toolLen)))) serverConfig =
        { status := if latencyMs ≤ 500 then .healthy else .degraded,
          auth := .open_, latencyMs := some latencyMs,
          toolCount := some toolLen, error := none }) ∧
    (∀ serverConfig,
      doProbe (.connectOk (.pingOk 120 (.toolsOk (some 3)))) serverConfig =
        { status := .healthy, auth := .open_, latencyMs := some 120,
          toolCount := some 3, error := none }) ∧
    (∀ serverConfig,
      doProbe (.connectOk (.pingOk 900 (.toolsOk (some 0)))) serverConfig =
        { status := .degraded, auth := .open_, latencyMs := some 900,
          toolCount := some 0, error := none }) := by
  refine ⟨?_, fun _ => rfl, fun _ => rfl⟩
  intro latencyMs toolLen serverConfig
  simp only [doProbe, Option.getD_some]
  congr 1
  by_cases h : latencyMs ≤ 500
  · have h2 : ¬ latencyMs > 2000 := by omega
    have h3 : ¬ latencyMs > 500 := by omega
    simp [h, h2, h3]
  · have h3 : latencyMs > 500 := by omega
    by_cases h2 : latencyMs > 2000 <;> simp [h, h2, h3]

/-- C5: a 401/403-class (authorization-denied) response at the
handshake yields `{health: healthy, auth: protected, latencyMs: null,
toolCount: null}`, regardless of the endpoint's `expectAuth` hint. -/
theorem authDenied_spec (err : JSError) (serverConfig : ServerConfig)
    (h : err.code = some 401 ∨ err.code = some 403) :
    classifyConnectError err serverConfig =
      { status := .healthy, auth := .protected_, latencyMs := none,
        toolCount := none, error := none } := by
  have hguard : isAuthDenied err = true := by
    rcases h with h | h <;> simp [isAuthDenied, h]
  simp [classifyConnectError, hguard]

/-- Witness for C5 at a concrete 401 error with `expectAuth = true`. -/
theorem authDenied_spec_witness :
    classifyConnectError
        { message := ("Unauthorized"), name := ("Error"), code := some 401,
          ctorName := ("StreamableHTTPError"), causeCode := none }
        { url := ("https://b.example/mcp"), transport := ("sse"), expectAuth := true } =
      { status := .healthy, auth := .protected_, latencyMs := none,
        toolCount := none, error := none } :=
  authDenied_spec _ _ (Or.inl rfl)

/-- C10: if the probe race rejects (timeout or any escaped exception,
invalid URL included), `probeServer` still returns a well-formed
`CheckResult`: health `down`, auth `protected` iff the `expectAuth`
hint is set (else `unknown`), no latency, no tool count, a non-empty
error description, and the timestamp captured at call start. -/
theorem probeServer_error_spec (timestamp : Nat) (serverConfig : ServerConfig)
    (err : JSError) (h : err.name ≠ "") :
    probeServer timestamp serverConfig (.raised err) =
      { timestamp := timestamp, status := .down,
        auth := if serverConfig.expectAuth then .protected_ else .unknown,
        latencyMs := none, toolCount := none, error := some (errorText err) } ∧
    errorText err ≠ "" := by
  refine ⟨rfl, ?_⟩
  unfold errorText jsErrorToString
  by_cases hm : err.message = "" <;> simp [hm, h]

/-- Witness for C10 at a concrete timeout error. -/
theorem probeServer_error_spec_witness :
    probeServer 1700000000000
        { url := ("https://c.example/mcp"), transport := ("streamable-http"),
          expectAuth := false }
        (.raised { message := ("Probe timed out after 10000ms"), name := ("Error"),
                   code := none, ctorName := ("Error"), causeCode := none }) =
      { timestamp := 1700000000000, status := .down, auth := .unknown,
        latencyMs := none, toolCount := none,
        error := some ("Probe timed out after 10000ms") } ∧
    errorText { message := ("Probe timed out after 10000ms"), name := ("Error"),
                code := none, ctorName := ("Error"), causeCode := none } ≠ "" := by
  have h := probeServer_error_spec 1700000000000
      { url := ("https://c.example/mcp"), transport := ("streamable-http"),
        expectAuth := false }
      { message := ("Probe timed out after 10000ms"), name := ("Error"),
        code := none, ctorName := ("Error"), causeCode := none }
      (by decide)
  simpa using h

/-! ## Scheduler: short-circuit probing of multi-remote providers
(`probeMultiRemote` in `server.js`) -/

/-- One remote endpoint of a provider, as stored in `servers.json`:
`{ url, transport, expectAuth, remoteName }`. -/
structure Remote where
  url : String
  transport : String
  expectAuth : Bool
  remoteName : String
deriving DecidableEq, Repr

/-- The synthetic `CheckResult` recorded for a remote that is skipped
by the short-circuit branch of `probeMultiRemote`. -/
def shortCircuitResult (now : Nat) (remote : Remote) : CheckResult :=
  { timestamp := now, status := .unknown,
    auth := if remote.expectAuth then .protected_ else .unknown,
    latencyMs := none, toolCount := none, error := some ("short-circuited") }

/-- The loop of `probeMultiRemote`, with the `hitRed` flag explicit.
`probe` is the (pure-in-this-model) result of probing a remote; the
returned `Bool` records whether the remote was actually probed
(`true`) or received the synthetic short-circuit entry (`false`). -/
def probeMultiRemoteGo (probe : Remote → CheckResult) (now : Nat) :
    Bool → List Remote → List (CheckResult × Bool)
  | _, [] => []
  | true, r :: rest =>
      (shortCircuitResult now r, false) :: probeMultiRemoteGo probe now true rest
  | false, r :: rest =>
      (probe r, true) :: probeMultiRemoteGo probe now ((probe r).status == .down) rest

/-- `probeMultiRemote` of `server.js`, over the already-shuffled remote
list (the shuffle supplies the order; the loop itself is
order-deterministic).  Starts with `hitRed = false`. -/
def probeMultiRemote (probe : Remote → CheckResult) (now : Nat)
    (shuffled : List Remote) : List (CheckResult × Bool) :=
  probeMultiRemoteGo probe now false shuffled

lemma probeMultiRemoteGo_true (probe : Remote → CheckResult) (now : Nat) :
    ∀ l : List Remote,
      probeMultiRemoteGo probe now true l =
        l.map (fun r => (shortCircuitResult now r, false)) := by
  intro l
  induction l with
  | nil => rfl
  | cons r rest ih => simp [probeMultiRemoteGo, ih]

/-- C2: in the shuffled order, remotes up to and including the first
`down` result are actually probed and their real results recorded;
every remote after the first `down` is not probed and instead receives
the synthetic `unknown`/`short-circuited` entry (auth `protected` iff
its `expectAuth` hint is set).  When no probe comes back `down`,
`findIdx` is the list length and every remote is probed.  The second
clause instantiates the probing order [A(healthy), B(down),
C(healthy)]: A and B record their real results, C records the
synthetic entry and is never probed. -/
theorem probeMultiRemote_spec :
    (∀ (probe : Remote → CheckResult) (now : Nat) (shuffled : List Remote),
      probeMultiRemote probe now shuffled =
        (shuffled.take (shuffled.findIdx (fun r => (probe r).status == .down) + 1)).map
            (fun r => (probe r, true)) ++
        (shuffled.drop (shuffled.findIdx (fun r => (probe r).status == .down) + 1)).map
            (fun r => (shortCircuitResult now r, false))) ∧
    (∀ (resA resB resC : CheckResult) (a b c : Remote) (now : Nat)
        (probe : Remote → CheckResult),
      probe a = resA → probe b = resB → probe c = resC →
      resA.status = .healthy → resB.status = .down → resC.status = .healthy →
      probeMultiRemote probe now [a, b, c] =
        [(resA, true), (resB, true), (shortCircuitResult now c, false)]) := by
  constructor
  · intro probe now shuffled
    induction shuffled with
    | nil => rfl
    | cons r rest ih =>
        by_cases h : (probe r).status = .down
        · simp [probeMultiRemote, probeMultiRemoteGo, List.findIdx_cons, h,
            probeMultiRemoteGo_true]
        · have hb : ((probe r).status == .down) = false := by
            simp [h]
          simp only [probeMultiRemote, probeMultiRemoteGo, List.findIdx_cons, hb,
            cond_false, List.take_succ_cons, List.drop_succ_cons, List.map_cons,
            List.cons_append]
          exact congrArg _ ih
  · intro resA resB resC a b c now probe ha hb hc hA hB hC
    have hbA : (resA.status == Status.down) = false := by
      rw [hA]; decide
    have hbB : (resB.status == Status.down) = true := by
      rw [hB]; decide
    simp [probeMultiRemote, probeMultiRemoteGo, hbA, hbB, ha, hb]

/-- Witness for C2's conditional scenario clause at concrete remotes
and probe results. -/
theorem probeMultiRemote_spec_witness :
    probeMultiRemote
        (fun r =>
          { timestamp := 100, status := if r.remoteName == ("B") then .down else .healthy,
            auth := .open_, latencyMs := some 42, toolCount := some 2, error := none })
        200
        [{ url := ("https://a.example"), transport := ("streamable-http"),
           expectAuth := false, remoteName := ("A") },
         { url := ("https://b.example"), transport := ("streamable-http"),
           expectAuth := false, remoteName := ("B") },
         { url := ("https://c.example"), transport := ("sse"),
           expectAuth := true, remoteName := ("C") }] =
      [({ timestamp := 100, status := .healthy, auth := .open_, latencyMs := some 42,
          toolCount := some 2, error := none }, true),
       ({ timestamp := 100, status := .down, auth := .open_, latencyMs := some 42,
          toolCount := some 2, error := none }, true),
       (shortCircuitResult 200
          { url := ("https://c.example"), transport := ("sse"),
            expectAuth := true, remoteName := ("C") }, false)] := by
  exact probeMultiRemote_spec.2 _ _ _ _ _ _ _ _ rfl rfl rfl (by decide) (by decide)
    (by decide)

/-! ## History store (`recordResult`, `loadHistory` in `server.js`) -/

/-- Timestamp order on check results; a history series is kept sorted
under this relation. -/
def tsLE (a b : CheckResult) : Prop := a.timestamp ≤ b.timestamp

instance : DecidableRel tsLE := fun a b => Nat.decLe a.timestamp b.timestamp

/-- The trim loop of `recordResult`:
`while (checks.length > 0 && checks[0].timestamp < cutoff) checks.shift()`,
i.e. drop from the front while the head is older than the cutoff. -/
def trimOld (cutoff : Nat) (checks : List CheckResult) : List CheckResult :=
  checks.dropWhile (fun c => decide (c.timestamp < cutoff))

/-- `recordResult` of `server.js`, restricted to the series it
mutates: push the new result, then trim entries older than the cutoff
from the front.  (The surrounding map lookup ignores unknown keys and
is not part of the series transformation.) -/
def recordResult (checks : List CheckResult) (result : CheckResult)
    (cutoff : Nat) : List CheckResult :=
  trimOld cutoff (checks ++ [result])

/-- The per-key filter applied by `loadHistory` to persisted entries:
`checks.filter(c => c.timestamp > cutoff)`. -/
def loadFilterChecks (checks : List CheckResult) (cutoff : Nat) : List CheckResult :=
  checks.filter (fun c => decide (cutoff < c.timestamp))

lemma mem_trimOld_ge (cutoff : Nat) :
    ∀ checks : List CheckResult, List.Sorted tsLE checks →
      ∀ c ∈ trimOld cutoff checks, cutoff ≤ c.timestamp := by
  intro checks
  induction checks with
  | nil => intro _ c hc; simp [trimOld] at hc
  | cons a t ih =>
      intro hs c hc
      by_cases h : a.timestamp < cutoff
      · have : trimOld cutoff (a :: t) = trimOld cutoff t := by
          simp [trimOld, List.dropWhile_cons, h]
        rw [this] at hc
        exact ih hs.of_cons c hc
      · have : trimOld cutoff (a :: t) = a :: t := by
          simp [trimOld, List.dropWhile_cons, h]
        rw [this] at hc
        rcases List.mem_cons.mp hc with rfl | hmem
        · omega
        · have := List.rel_of_sorted_cons hs c hmem
          unfold tsLE at this
          omega

lemma sorted_trimOld (cutoff : Nat) (checks : List CheckResult)
    (hs : List.Sorted tsLE checks) : List.Sorted tsLE (trimOld cutoff checks) :=
  List.Pairwise.sublist (List.dropWhile_sublist _) hs

/-- C6: history-series invariants.  After `recordResult` on a
timestamp-sorted series whose entries all precede the new result, the
series is still sorted and every retained entry has
`timestamp ≥ cutoff` (the cutoff is `now − retentionWindow` at every
call site); after the `loadHistory` filter on a sorted persisted
series, the series is sorted and every retained entry has
`timestamp ≥ cutoff` (the filter keeps strictly newer entries, which
in particular satisfy `≥`). -/
theorem history_invariants :
    (∀ (checks : List CheckResult) (result : CheckResult) (cutoff : Nat),
      List.Sorted tsLE checks →
      (∀ c ∈ checks, c.timestamp ≤ result.timestamp) →
      List.Sorted tsLE (recordResult checks result cutoff) ∧
      ∀ c ∈ recordResult checks result cutoff, cutoff ≤ c.timestamp) ∧
    (∀ (checks : List CheckResult) (cutoff : Nat),
      List.Sorted tsLE checks →
      List.Sorted tsLE (loadFilterChecks checks cutoff) ∧
      ∀ c ∈ loadFilterChecks checks cutoff, cutoff ≤ c.timestamp) := by
  constructor
  · intro checks result cutoff hs hmax
    have hsApp : List.Sorted tsLE (checks ++ [result]) := by
      refine List.pairwise_append.mpr ⟨hs, List.pairwise_singleton _ _, ?_⟩
      intro a ha b hb
      rcases List.mem_singleton.mp hb with rfl
      exact hmax a ha
    exact ⟨sorted_trimOld cutoff _ hsApp, mem_trimOld_ge cutoff _ hsApp⟩
  · intro checks cutoff hs
    refine ⟨List.Pairwise.filter _ hs, ?_⟩
    intro c hc
    have := (List.mem_filter.mp hc).2
    have := of_decide_eq_true this
    omega

/-- Witness for C6 at a concrete two-entry series, new result and
cutoff. -/
theorem history_invariants_witness :
    (List.Sorted tsLE (recordResult
        [{ timestamp := 1, status := .down, auth := .unknown, latencyMs := none,
           toolCount := none, error := some ("ECONNREFUSED") },
         { timestamp := 6, status := .healthy, auth := .open_, latencyMs := some 80,
           toolCount := some 4, error := none }]
        { timestamp := 9, status := .degraded, auth := .open_, latencyMs := some 900,
          toolCount := some 4, error := none }
        5) ∧
      ∀ c ∈ recordResult
        [{ timestamp := 1, status := .down, auth := .unknown, latencyMs := none,
           toolCount := none, error := some ("ECONNREFUSED") },
         { timestamp := 6, status := .healthy, auth := .open_, latencyMs := some 80,
           toolCount := some 4, error := none }]
        { timestamp := 9, status := .degraded, auth := .open_, latencyMs := some 900,
          toolCount := some 4, error := none }
        5, 5 ≤ c.timestamp) ∧
    (List.Sorted tsLE (loadFilterChecks
        [{ timestamp := 1, status := .down, auth := .unknown, latencyMs := none,
           toolCount := none, error := some ("ECONNREFUSED") },
         { timestamp := 6, status := .healthy, auth := .open_, latencyMs := some 80,
           toolCount := some 4, error := none }] 5) ∧
      ∀ c ∈ loadFilterChecks
        [{ timestamp := 1, status := .down, auth := .unknown, latencyMs := none,
           toolCount := none, error := some ("ECONNREFUSED") },
         { timestamp := 6, status := .healthy, auth := .open_, latencyMs := some 80,
           toolCount := some 4, error := none }] 5, 5 ≤ c.timestamp) := by
  refine ⟨?_, ?_⟩
  · exact history_invariants.1 _ _ 5
      (by unfold tsLE; simp)
      (by intro c hc; fin_cases hc <;> decide)
  · exact history_invariants.2 _ 5 (by unfold tsLE; simp)

/-! ## Aggregator: uptime and per-endpoint detail
(`buildRemoteDetail` in `server.js`) -/

/-- The uptime computation of `buildRemoteDetail`:
`totalChecks > 0 ? Math.round((nonDownChecks / totalChecks) * 10000) / 100 : null`
with `nonDownChecks = checks.filter(c => c.status !== 'down').length`.
`Math.round` rounds half toward `+∞`, as does Mathlib's `round`. -/
def uptimePercent (checks : List CheckResult) : Option ℚ :=
  let totalChecks := checks.length
  let nonDownChecks := (checks.filter (fun c => !(c.status == .down))).length
  if 0 < totalChecks then
    some ((round (((nonDownChecks : ℚ) / (totalChecks : ℚ)) * 10000) : ℚ) / 100)
  else
    none

/-- Rounding to two decimal places, as the claim states it:
`round(q, 2) = round(q * 100) / 100`. -/
def roundTo2 (q : ℚ) : ℚ := (round (q * 100) : ℚ) / 100

lemma filter_down_split :
    ∀ checks : List CheckResult,
      (checks.filter (fun c => !(c.status == .down))).length +
        (checks.filter (fun c => (c.status == .down))).length = checks.length := by
  intro checks
  induction checks with
  | nil => rfl
  | cons c t ih =>
      by_cases h : c.status = .down <;>
        simp [List.filter_cons, h] <;> omega

/-- C7: for a series of `n` entries of which `d` are `down`, the
uptime percentage equals `round(100 * (n − d) / n, 2)`, and is `null`
when `n = 0`. -/
theorem uptimePercent_spec (checks : List CheckResult) :
    uptimePercent checks =
      if checks.length = 0 then none
      else some (roundTo2 (100 *
        ((checks.length : ℚ) -
          ((checks.filter (fun c => (c.status == .down))).length : ℚ)) /
        (checks.length : ℚ))) := by
  rcases Nat.eq_zero_or_pos checks.length with h | h
  · simp [uptimePercent, h]
  · have hne : checks.length ≠ 0 := by omega
    have hsplit := filter_down_split checks
    have hcast :
        ((checks.filter (fun c => !(c.status == .down))).length : ℚ) =
          (checks.length : ℚ) -
            ((checks.filter (fun c => (c.status == .down))).length : ℚ) := by
      have := congrArg (fun n : Nat => (n : ℚ)) hsplit
      push_cast at this
      linarith
    simp only [uptimePercent, h, if_true, hne, if_false, roundTo2]
    congr 2
    rw [hcast]
    ring_nf

/-- The slice of `buildRemoteDetail` that the claims are about: the
latest-check fields and the uptime percentage. -/
structure RemoteDetail where
  status : Status
  auth : Auth
  latencyMs : Option Nat
  toolCount : Option Nat
  uptimePercent : Option ℚ
deriving DecidableEq, Repr

/-- `buildRemoteDetail` of `server.js`, restricted to the fields above:
`latest = checks.length > 0 ? checks[checks.length - 1] : null`, then
each field comes from `latest` or the documented default. -/
def buildRemoteDetail (remote : Remote) (checks : List CheckResult) : RemoteDetail :=
  let latest := checks.getLast?
  { status := match latest with | some l => l.status | none => .unknown
    auth := match latest with
      | some l => l.auth
      | none => if remote.expectAuth then .protected_ else .unknown
    latencyMs := match latest with | some l => l.latencyMs | none => none
    toolCount := match latest with | some l => l.toolCount | none => none
    uptimePercent := uptimePercent checks }

/-- C9 counterexample: for an endpoint with `expectAuth = true` and an
empty history series, the detail view reports auth `protected`, not
the `unknown` default the claim asserts. -/
theorem emptyHistory_auth_counterexample :
    (buildRemoteDetail
        { url := ("https://d.example/mcp"), transport := ("streamable-http"),
          expectAuth := true, remoteName := ("default") } []).auth = .protected_ ∧
    Auth.protected_ ≠ Auth.unknown := by
  exact ⟨rfl, by decide⟩

/-- C9 amended: for an empty history series the detail view reports
health `unknown`, latency and tool count absent, uptime `null`, and
auth `protected` when the endpoint's `expectAuth` hint is set and
`unknown` otherwise. -/
theorem buildRemoteDetail_empty_spec_amended (remote : Remote) :
    buildRemoteDetail remote [] =
      { status := .unknown,
        auth := if remote.expectAuth then .protected_ else .unknown,
        latencyMs := none, toolCount := none, uptimePercent := none } := rfl

/-! ## Health-icon summary (`computeHealthIcons` in `server.js`) -/

/-- Severity colors used by the icon summary. -/
inductive Color where
  | red
  | orange
  | yellow
  | gray
  | green
deriving DecidableEq, Repr, Fintype

/-- `statusToColor` table of `computeHealthIcons`.  The JS lookup
defaults to `'gray'` for unrecognized strings; `Status` has exactly
the recognized strings, so the default arm is unreachable here. -/
def statusToColor : Status → Color
  | .healthy => .green
  | .degraded => .yellow
  | .unhealthy => .orange
  | .down => .red
  | .unknown => .gray

/-- `colorPriority` table:
`{ red: 0, orange: 1, yellow: 2, gray: 3, green: 4 }` (worst first). -/
def colorPriority : Color → Nat
  | .red => 0
  | .orange => 1
  | .yellow => 2
  | .gray => 3
  | .green => 4

/-- The comparator `(a, b) => colorPriority[a] - colorPriority[b]`
sorts ascending by priority; this is the corresponding ordering. -/
def colorLe (a b : Color) : Prop := colorPriority a ≤ colorPriority b

instance : DecidableRel colorLe := fun a b => Nat.decLe (colorPriority a) (colorPriority b)

instance : IsTotal Color colorLe := ⟨by decide⟩

instance : IsTrans Color colorLe := ⟨by decide⟩

instance : IsAntisymm Color colorLe := ⟨by decide⟩

/-- First-occurrence deduplication, the order a JS `Set` built from
the list iterates in (insertion order). -/
def dedupFirst : List Color → List Color
  | [] => []
  | a :: l => a :: dedupFirst (l.filter (fun b => !(b == a)))
termination_by l => l.length
decreasing_by
  simp only [List.length_cons]
  exact Nat.lt_succ_of_le (List.length_filter_le _ _)

/-- `computeHealthIcons` of `server.js`: cap at `min(3, N)` icons,
collect the distinct colors present sorted worst-first, take up to the
cap, pad the remaining slots with the worst color present, and sort
worst-first.  The JS `Array.sort` is modelled as insertion sort; the
comparator is total and antisymmetric on colors, so every comparison
sort produces the same output.  `headD .gray` models
`colorsPresent[0]`, which is only read when `colorsPresent` is
non-empty. -/
def computeHealthIcons (remoteStatuses : List Status) : List Color :=
  let maxIcons := min 3 remoteStatuses.length
  if maxIcons = 0 then []
  else
    let colorsPresent :=
      List.insertionSort colorLe (dedupFirst (remoteStatuses.map statusToColor))
    let iconsTaken := colorsPresent.take maxIcons
    let icons := iconsTaken ++
      List.replicate (maxIcons - iconsTaken.length) (colorsPresent.headD .gray)
    List.insertionSort colorLe icons

/-- The claim's description of the icon summary, as a definition: the
distinct severity colors present, ordered worst-first, one icon each
up to `min(3, N)` slots, with the remaining slots padded by repeating
the single worst color present. -/
def healthIconsSpec (remoteStatuses : List Status) : List Color :=
  let m := min 3 remoteStatuses.length
  let distinct :=
    List.insertionSort colorLe (dedupFirst (remoteStatuses.map statusToColor))
  List.replicate (m - distinct.length) (distinct.headD .gray) ++ distinct.take m

lemma mem_dedupFirst (x : Color) (xs : List Color) : x ∈ dedupFirst xs ↔ x ∈ xs := by
  induction xs using dedupFirst.induct with
  | case1 => simp [dedupFirst]
  | case2 a l ih =>
      rw [dedupFirst]
      constructor
      · intro h
        rcases List.mem_cons.mp h with rfl | h
        · exact List.mem_cons_self _ _
        · exact List.mem_cons_of_mem _ (List.mem_filter.mp (ih.mp h)).1
      · intro h
        rcases List.mem_cons.mp h with rfl | h
        · exact List.mem_cons_self _ _
        · by_cases hxa : x = a
          · subst hxa; exact List.mem_cons_self _ _
          · refine List.mem_cons_of_mem _ (ih.mpr ?_)
            exact List.mem_filter.mpr ⟨h, by simp [hxa]⟩

lemma nodup_dedupFirst (xs : List Color) : (dedupFirst xs).Nodup := by
  induction xs using dedupFirst.induct with
  | case1 => simp [dedupFirst]
  | case2 a l ih =>
      rw [dedupFirst]
      refine List.nodup_cons.mpr ⟨?_, ih⟩
      intro hmem
      have h := (List.mem_filter.mp ((mem_dedupFirst a _).mp hmem)).2
      simp at h

lemma sorted_colorLe_replicate (n : Nat) (c : Color) :
    List.Sorted colorLe (List.replicate n c) := by
  induction n with
  | zero => simp
  | succ k ih =>
      rw [List.replicate_succ]
      refine List.sorted_cons.mpr ⟨?_, ih⟩
      intro b hb
      rw [List.eq_of_mem_replicate hb]
      simp [colorLe]

lemma sorted_headD_le {P : List Color} (hs : List.Sorted colorLe P) :
    ∀ x ∈ P, colorLe (P.headD .gray) x := by
  cases P with
  | nil => intro x hx; simp at hx
  | cons a t =>
      intro x hx
      rcases List.mem_cons.mp hx with rfl | hx
      · simp [colorLe]
      · exact List.rel_of_sorted_cons hs x hx

lemma computeHealthIcons_eq_spec (l : List Status) :
    computeHealthIcons l = healthIconsSpec l := by
  rcases eq_or_ne l [] with rfl | hl
  · simp [computeHealthIcons, healthIconsSpec, dedupFirst]
  · have hlen : 0 < l.length := List.length_pos.mpr hl
    have hm0 : ¬ (min 3 l.length = 0) := by omega
    simp only [computeHealthIcons, healthIconsSpec, if_neg hm0]
    set m := min 3 l.length with hm
    set P := List.insertionSort colorLe (dedupFirst (l.map statusToColor)) with hP
    have hPsorted : List.Sorted colorLe P := List.sorted_insertionSort _ _
    have hcount : m - (P.take m).length = m - P.length := by
      rw [List.length_take]; omega
    refine List.eq_of_perm_of_sorted ?_ (List.sorted_insertionSort _ _) ?_
    · refine List.Perm.trans (List.perm_insertionSort _ _) ?_
      rw [hcount]
      exact List.perm_append_comm
    · refine List.pairwise_append.mpr
        ⟨sorted_colorLe_replicate _ _,
         List.Pairwise.sublist (List.take_sublist _ _) hPsorted, ?_⟩
      intro a ha b hb
      rw [List.eq_of_mem_replicate ha]
      exact sorted_headD_le hPsorted b (List.mem_of_mem_take hb)

lemma filter_ne_self_replicate (k : Nat) (c : Color) :
    (List.replicate k c).filter (fun b => !(b == c)) = [] := by
  induction k with
  | zero => rfl
  | succ j ih => rw [List.replicate_succ, List.filter_cons]; simp [ih]

lemma dedupFirst_replicate_succ (k : Nat) (c : Color) :
    dedupFirst (List.replicate (k + 1) c) = [c] := by
  rw [List.replicate_succ, dedupFirst, filter_ne_self_replicate]
  simp [dedupFirst]

/-- C8: the icon summary has exactly `min(3, N)` entries (hence never
more than 3, and none for a zero-endpoint service), is sorted
worst-first by the fixed priority `red < orange < yellow < gray <
green`, shows only colors that are present, equals the claim-side
construction `healthIconsSpec` (one icon per distinct color present,
worst-first, padded by repeating the worst color present) — with
`dedupFirst` certified to compute exactly the distinct colors — and
on a single-status input of length `N` yields `min(3, N)` copies of
that status's color. -/
theorem computeHealthIcons_spec :
    (colorPriority .red < colorPriority .orange ∧
     colorPriority .orange < colorPriority .yellow ∧
     colorPriority .yellow < colorPriority .gray ∧
     colorPriority .gray < colorPriority .green) ∧
    (∀ xs : List Color, (dedupFirst xs).Nodup ∧ ∀ c : Color, c ∈ dedupFirst xs ↔ c ∈ xs) ∧
    (∀ l : List Status, computeHealthIcons l = healthIconsSpec l) ∧
    (∀ l : List Status, (computeHealthIcons l).length = min 3 l.length) ∧
    (∀ l : List Status, List.Sorted colorLe (computeHealthIcons l)) ∧
    (∀ l : List Status, ∀ c ∈ computeHealthIcons l, c ∈ l.map statusToColor) ∧
    computeHealthIcons [] = [] ∧
    (∀ (n : Nat) (s : Status),
      computeHealthIcons (List.replicate n s) =
        List.replicate (min 3 n) (statusToColor s)) := by
  have hlenEq : ∀ l : List Status, (computeHealthIcons l).length = min 3 l.length := by
    intro l
    rw [computeHealthIcons_eq_spec]
    simp only [healthIconsSpec, List.length_append, List.length_replicate,
      List.length_take]
    omega
  have hsorted : ∀ l : List Status, List.Sorted colorLe (computeHealthIcons l) := by
    intro l
    simp only [computeHealthIcons]
    split
    · exact List.sorted_nil
    · exact List.sorted_insertionSort _ _
  refine ⟨by decide, fun xs => ⟨nodup_dedupFirst xs, fun c => mem_dedupFirst c xs⟩,
    computeHealthIcons_eq_spec, hlenEq, hsorted, ?_, rfl, ?_⟩
  · intro l c hc
    rcases eq_or_ne l [] with rfl | hl
    · simp [computeHealthIcons] at hc
    · rw [computeHealthIcons_eq_spec] at hc
      simp only [healthIconsSpec] at hc
      set P := List.insertionSort colorLe (dedupFirst (l.map statusToColor)) with hP
      have hPne : P ≠ [] := by
        have hlen' : P.length = (dedupFirst (l.map statusToColor)).length :=
          (List.perm_insertionSort _ _).length_eq
        intro h
        rw [h] at hlen'
        rcases l with _ | ⟨s, t⟩
        · exact hl rfl
        · rw [List.map_cons, dedupFirst] at hlen'
          simp at hlen'
      have hmemP : ∀ x ∈ P, x ∈ l.map statusToColor := by
        intro x hx
        have : x ∈ dedupFirst (l.map statusToColor) :=
          ((List.perm_insertionSort _ _).mem_iff).mp hx
        exact (mem_dedupFirst x _).mp this
      rcases List.mem_append.mp hc with h | h
      · rw [List.eq_of_mem_replicate h]
        rcases P with _ | ⟨a, t⟩
        · exact absurd rfl hPne
        · exact hmemP a (List.mem_cons_self _ _)
      · exact hmemP c (List.mem_of_mem_take h)
  · intro n s
    rcases n with _ | k
    · simp [computeHealthIcons]
    · rw [computeHealthIcons_eq_spec]
      simp only [healthIconsSpec, List.map_replicate, dedupFirst_replicate_succ]
      have hsort : List.insertionSort colorLe [statusToColor s] = [statusToColor s] := rfl
      rw [hsort]
      simp only [List.length_replicate, List.length_cons, List.length_nil,
        List.headD_cons]
      have htake : [statusToColor s].take (3 ⊓ (k + 1)) = [statusToColor s] :=
        List.take_of_length_le (by simp only [List.length_cons, List.length_nil]; omega)
      rw [htake, ← List.replicate_succ']
      congr 1
      omega

end Mcpdd
